import Mathlib

/-!
Shallow embedding of the phonebook application (src/contact.py, src/phonebook.py).

Modelling conventions:
* `datetime.now()` is modelled by an explicit timestamp parameter `t : Nat`
  supplied once per operation call (the code's own comment in `Contact.__init__`
  states that the two `now()` calls there yield the same second-granularity value).
* Python `None` / strings are modelled by `Option String` for optional values;
  Python truthiness of such a value (`if email:`) is `truthy` below.
* The audit-log file is modelled as the list of its lines, `audit_log : List String`;
  `log_operation` appends one line `"{timestamp} - {description}"`.
* `print` output is modelled as a list of `Msg` values, one constructor per
  distinct message the source prints.
* An uncaught Python exception is modelled by the `exn : Option String` field of
  an operation's result: `some e` means the operation raised `e` past the
  phonebook boundary, with the state holding the mutations applied before the raise.
* `re.search(pattern, text)` receives the raw user query as its pattern, so it
  is modelled by a small regular-expression engine: `reCompile` parses the
  pattern (literals, `.`, character classes, groups including non-capturing
  and named ones, alternation, the quantifiers `*`, `+`, `?`, `{m,n}` with
  their lazy variants, the anchors and assertions `^`, `$`, `\A`, `\Z`, `\b`,
  `\B`, and the escapes `\d \D \w \W \s \S`, control escapes, `\xhh`, and
  escaped punctuation), returning `none` — Python's `re.error` — on malformed
  syntax (unbalanced parenthesis or bracket, nothing to repeat, multiple
  repeat, bad character range, bad escape, min repeat greater than max);
  matching uses position-aware Brzozowski derivatives. Constructs Python
  additionally accepts — backreferences, lookaround, scoped flags, possessive
  quantifiers — lie outside the modelled fragment and are mapped to the error
  outcome; character-class semantics are ASCII, as with the validators, and
  `$`/`\Z` are modelled as end-of-string only. Since the source calls
  `re.search` inside the loop over contacts, a bad pattern raises only when
  the contact list is non-empty; on an empty list the loop body never runs
  and the search logs normally.
* CSV files are modelled as the list of their parsed rows (`List (List String)`)
  plus a `fileExists : Bool` flag for the `os.path.exists` check.
-/

namespace Phonebook

/-- Python truthiness of an optional string: `None` and `""` are falsy. -/
def truthy : Option String → Bool
  | none => false
  | some s => !s.isEmpty

/-- The five user-supplied fields of a contact (the fields Python `__eq__` compares). -/
structure FieldValues where
  first_name : String
  last_name : String
  phone_number : String
  email : Option String
  address : Option String
deriving DecidableEq, Repr

/-- One entry of `Contact.update_history`: timestamp plus full before/after
snapshots of the five fields (contact.py, lines 53-63). -/
structure HistoryEntry where
  time_updated : Nat
  old_values : FieldValues
  new_values : FieldValues
deriving DecidableEq, Repr

/-- The `Contact` object of contact.py. -/
structure Contact where
  first_name : String
  last_name : String
  phone_number : String
  email : Option String
  address : Option String
  time_created : Nat
  time_updated : Nat
  update_history : List HistoryEntry
deriving DecidableEq, Repr

/-- The five-field snapshot of a contact. -/
def Contact.fields (c : Contact) : FieldValues :=
  { first_name := c.first_name, last_name := c.last_name,
    phone_number := c.phone_number, email := c.email, address := c.address }

/-- `Contact.__init__` (contact.py, lines 13-25): sets the five fields, records
`time_created = time_updated = now()` and an empty update history. -/
def Contact.init (first_name last_name phone_number : String)
    (email address : Option String) (t : Nat) : Contact :=
  { first_name := first_name, last_name := last_name, phone_number := phone_number,
    email := email, address := address,
    time_created := t, time_updated := t, update_history := [] }

/-- `x = new if new else x` for a required string attribute. -/
def pickS (cur : String) (new : Option String) : String :=
  match new with
  | some s => if s.isEmpty then cur else s
  | none => cur

/-- `x = new if new else x` for an optional string attribute. -/
def pickO (cur : Option String) (new : Option String) : Option String :=
  match new with
  | some s => if s.isEmpty then cur else some s
  | none => cur

/-- `Contact.update` (contact.py, lines 28-63): replaces each truthy-provided
field, advances `time_updated`, and appends one history entry holding the full
before/after snapshots. -/
def Contact.update (c : Contact)
    (first_name last_name phone_number email address : Option String) (t : Nat) : Contact :=
  let old_values := c.fields
  let c' : Contact :=
    { c with
      first_name := pickS c.first_name first_name,
      last_name := pickS c.last_name last_name,
      phone_number := pickS c.phone_number phone_number,
      email := pickO c.email email,
      address := pickO c.address address,
      time_updated := t }
  { c' with
    update_history := c'.update_history ++
      [{ time_updated := t, old_values := old_values, new_values := c'.fields }] }

/-- `Contact.__eq__` (contact.py, lines 77-84): structural equality over the
five user-supplied fields only. -/
def Contact.eqPy (a b : Contact) : Bool :=
  a.fields == b.fields

/-- `f"{contact.first_name} {contact.last_name}".lower()`. -/
def fullNameLower (c : Contact) : String :=
  (c.first_name ++ " " ++ c.last_name).toLower

/-- Console messages printed by the source, one constructor per distinct message. -/
inductive Msg where
  /-- `Contact '{full_name}' deleted successfully.` -/
  | deleted (full_name : String)
  /-- `Error: No contact found with the full name '{full_name}'.` -/
  | deleteNotFound (full_name : String)
  /-- `Contacts added successfully from CSV.` -/
  | batchAddOk
  /-- `Error: Contact {first} {last} does not exist.` (batch delete, per row) -/
  | rowMissing (first_name last_name : String)
  /-- `Contacts added successfully batch removed from CSV.` -/
  | batchDeleteOk
  /-- `Error: Invalid phone number format. It must be (###) ###-####.` -/
  | invalidPhone
  /-- `Error: Invalid email format. It must be in the format username@domain.com.` -/
  | invalidEmail
  /-- `Contact updated successfully!` -/
  | updateOk
  /-- `No contacts available in the phonebook.` -/
  | noContacts
  /-- One numbered line of `display_contacts`. -/
  | contactLine (fields : FieldValues)
  /-- `Total contacts: {n}` -/
  | totalContacts (n : Nat)
  /-- `No contacts found matching the search criteria: {q}` -/
  | searchNoResults (query : String)
  /-- One matching contact echoed by `search_contacts`. -/
  | searchHit (fields : FieldValues)
  /-- `Error: Invalid sort type.` -/
  | sortInvalid
  /-- One echoed line of the audit log. -/
  | auditLine (line : String)
  /-- `Audit log has been cleared.` -/
  | auditCleared
deriving DecidableEq, Repr

/-- The `PhoneBook` object of phonebook.py: the contact list plus the audit-log
file contents (as its list of lines). -/
structure PhoneBook where
  contacts_list : List Contact
  audit_log : List String
deriving DecidableEq, Repr

/-- The line `f"{datetime.now()} - {operation}\n"` written by `log_operation`. -/
def logLine (t : Nat) (operation : String) : String :=
  toString t ++ " - " ++ operation

/-- `PhoneBook.log_operation` (phonebook.py, lines 23-26): appends one
timestamped line to the audit-log file. -/
def PhoneBook.log_operation (pb : PhoneBook) (t : Nat) (operation : String) : PhoneBook :=
  { pb with audit_log := pb.audit_log ++ [logLine t operation] }

/-- Result of an operation: state on exit, console output, and the uncaught
exception if one escaped. -/
structure OpResult where
  pb : PhoneBook
  printed : List Msg
  exn : Option String
deriving DecidableEq, Repr

/-- `PhoneBook.add_contact` (phonebook.py, lines 29-31): unconditional append
plus one audit line. -/
def PhoneBook.add_contact (pb : PhoneBook) (contact : Contact) (t : Nat) : PhoneBook :=
  (PhoneBook.mk (pb.contacts_list ++ [contact]) pb.audit_log).log_operation t
    ("Added contact: " ++ contact.first_name ++ " " ++ contact.last_name)

/-- Python `list.remove` under `Contact.__eq__`: removes the first structurally
equal element, or `none` when no element is equal (`ValueError`). -/
def removeFirstEq : List Contact → Contact → Option (List Contact)
  | [], _ => none
  | x :: xs, c =>
    if x.eqPy c then some xs
    else (removeFirstEq xs c).map (fun l => x :: l)

/-- `PhoneBook.delete_contact` (phonebook.py, lines 34-53): lowercases the query,
scans for the first contact whose lowercased full name equals it, removes that
contact via `list.remove`, and logs success or failure distinctly. -/
def PhoneBook.delete_contact (pb : PhoneBook) (full_name : String) (t : Nat) : OpResult :=
  let fn := full_name.toLower
  match pb.contacts_list.find? (fun c => fullNameLower c == fn) with
  | some c =>
    -- `list.remove` cannot raise here: the found contact is in the list and
    -- `__eq__` is reflexive, so a structurally equal element exists.
    let l' := (removeFirstEq pb.contacts_list c).getD pb.contacts_list
    { pb := (PhoneBook.mk l' pb.audit_log).log_operation t
        ("Deleted contact: " ++ fullNameLower c),
      printed := [Msg.deleted fn], exn := none }
  | none =>
    { pb := pb.log_operation t ("Failed to delete contact: " ++ fn),
      printed := [Msg.deleteNotFound fn], exn := none }

/-- One CSV data row turned into a contact (phonebook.py, lines 63-70):
`row[0]`, `row[1]`, `row[2]` are mandatory (an `IndexError`, modelled as `none`,
escapes on shorter rows), fields 3 and 4 are optional. -/
def rowContact (row : List String) (t : Nat) : Option Contact :=
  if h : 2 < row.length then
    some (Contact.init (row.get ⟨0, by omega⟩) (row.get ⟨1, by omega⟩) (row.get ⟨2, by omega⟩)
      (if h3 : 3 < row.length then some (row.get ⟨3, h3⟩) else none)
      (if h4 : 4 < row.length then some (row.get ⟨4, h4⟩) else none) t)
  else none

/-- The row loop of `batch_add_contacts`: appends one contact per row, stopping
with an `IndexError` at the first row with fewer than 3 fields. -/
def addRows (t : Nat) : List Contact → List (List String) → List Contact × Option String
  | acc, [] => (acc, none)
  | acc, row :: rest =>
    match rowContact row t with
    | some c => addRows t (acc ++ [c]) rest
    | none => (acc, some "IndexError")

/-- `PhoneBook.batch_add_contacts` (phonebook.py, lines 56-73): if the file
exists, reads it, discards the first record (`next(csv_reader, None)`), appends
one contact per remaining row, and logs one summary line; when the file does
not exist, it silently does nothing (no log line). -/
def PhoneBook.batch_add_contacts (pb : PhoneBook) (filename : String)
    (rows : List (List String)) (fileExists : Bool) (t : Nat) : OpResult :=
  if fileExists then
    let p := addRows t pb.contacts_list rows.tail
    match p.2 with
    | none =>
      { pb := (PhoneBook.mk p.1 pb.audit_log).log_operation t
          ("Batch added contacts from file: " ++ filename),
        printed := [Msg.batchAddOk], exn := none }
    | some e => { pb := PhoneBook.mk p.1 pb.audit_log, printed := [], exn := some e }
  else { pb := pb, printed := [], exn := none }

/-- The row loop of `batch_delete_contacts`: per row, removes the first
structurally equal contact (`try: remove / except ValueError: print`), stopping
with an `IndexError` at the first row with fewer than 3 fields. -/
def delRows (t : Nat) : List Contact → List (List String) → List Contact × List Msg × Option String
  | acc, [] => (acc, [], none)
  | acc, row :: rest =>
    match rowContact row t with
    | none => (acc, [], some "IndexError")
    | some c =>
      match removeFirstEq acc c with
      | some acc' => delRows t acc' rest
      | none =>
        let r := delRows t acc rest
        (r.1, Msg.rowMissing c.first_name c.last_name :: r.2.1, r.2.2)

/-- `PhoneBook.batch_delete_contacts` (phonebook.py, lines 76-96): same file and
header handling as batch add; per-row failures are reported and do not stop the
batch; one summary log line when the loop completes. -/
def PhoneBook.batch_delete_contacts (pb : PhoneBook) (filename : String)
    (rows : List (List String)) (fileExists : Bool) (t : Nat) : OpResult :=
  if fileExists then
    let r := delRows t pb.contacts_list rows.tail
    match r.2.2 with
    | none =>
      { pb := (PhoneBook.mk r.1 pb.audit_log).log_operation t
          ("Batch deleted contacts from file: " ++ filename),
        printed := r.2.1 ++ [Msg.batchDeleteOk], exn := none }
    | some e => { pb := PhoneBook.mk r.1 pb.audit_log, printed := r.2.1, exn := some e }
  else { pb := pb, printed := [], exn := none }

/-- `re.fullmatch(r"\(\d{3}\) \d{3}-\d{4}", phone)` (phonebook.py, line 104),
with `\d` taken as an ASCII digit. -/
def is_valid_phone (phone : String) : Bool :=
  match phone.data with
  | ['(', d1, d2, d3, ')', ' ', d4, d5, d6, '-', d7, d8, d9, d10] =>
    d1.isDigit && d2.isDigit && d3.isDigit && d4.isDigit && d5.isDigit &&
    d6.isDigit && d7.isDigit && d8.isDigit && d9.isDigit && d10.isDigit
  | _ => false

/-- `re.fullmatch(r".+@.+\..+", email) is not None or not email` (phonebook.py,
line 107). The regex holds of a string iff it has no newline and there are
positions `i < j` with an `@` at `i`, a `.` at `j`, and at least one character
before `i`, strictly between `i` and `j`, and after `j`. -/
def is_valid_email (email : String) : Bool :=
  (email.data.all (fun c => c != '\n') &&
    (List.range email.data.length).any (fun j =>
      email.data.getD j ' ' == '.' && decide (j + 2 ≤ email.data.length) &&
      (List.range j).any (fun i =>
        email.data.getD i ' ' == '@' && decide (1 ≤ i) && decide (i + 2 ≤ j)))) ||
  email.isEmpty

/-- Result of `update_contact`: phonebook state, the (possibly mutated) contact
object, console output, and any escaped exception. -/
structure UpdateResult where
  pb : PhoneBook
  contact : Contact
  printed : List Msg
  exn : Option String
deriving DecidableEq, Repr

/-- Rendering of a field snapshot inside the update audit line (abstraction of
Python's dict formatting of `old_values` / `contact.__dict__`). -/
def optStr : Option String → String
  | none => "None"
  | some s => s

/-- See `optStr`. -/
def fieldsDescr (f : FieldValues) : String :=
  f.first_name ++ " " ++ f.last_name ++ " " ++ f.phone_number ++ " " ++
    optStr f.email ++ " " ++ optStr f.address

/-- `PhoneBook.update_contact` (phonebook.py, lines 101-140): validates the
phone (if truthy) and the email (if truthy), aborting with an error message and
no state change on failure; otherwise replaces each truthy-provided field
directly on the contact object (note: it does not call `Contact.update`, so no
history entry is appended and the timestamps are untouched) and logs one line.
The `try/except` around the assignments can never fire, so `exn` is `none`. -/
def PhoneBook.update_contact (pb : PhoneBook) (contact : Contact)
    (first_name last_name phone_number email address : Option String) (t : Nat) : UpdateResult :=
  let old_values := contact.fields
  if truthy phone_number && !is_valid_phone (phone_number.getD "") then
    { pb := pb, contact := contact, printed := [Msg.invalidPhone], exn := none }
  else if truthy email && !is_valid_email (email.getD "") then
    { pb := pb, contact := contact, printed := [Msg.invalidEmail], exn := none }
  else
    let c' : Contact :=
      { contact with
        first_name := pickS contact.first_name first_name,
        last_name := pickS contact.last_name last_name,
        phone_number := pickS contact.phone_number phone_number,
        email := pickO contact.email email,
        address := pickO contact.address address }
    { pb := pb.log_operation t
        ("Updated contact: " ++ fieldsDescr old_values ++ " to " ++ fieldsDescr c'.fields),
      contact := c', printed := [Msg.updateOk], exn := none }

/-- `PhoneBook.display_contacts` (phonebook.py, lines 143-156): prints the
listing (or "no contacts") and returns; it writes no audit line. -/
def PhoneBook.display_contacts (pb : PhoneBook) : OpResult :=
  if pb.contacts_list.isEmpty then
    { pb := pb, printed := [Msg.noContacts], exn := none }
  else
    { pb := pb,
      printed := pb.contacts_list.map (fun c => Msg.contactLine c.fields) ++
        [Msg.totalContacts pb.contacts_list.length],
      exn := none }

/-! #### A model of the `re` module for the fragment `search_contacts` exposes

The source passes the raw user query to `re.search`, so the model must both
reject malformed patterns (Python raises `re.error` when the pattern is first
compiled, i.e. at the first `re.search` call of the loop) and match valid ones.
`reCompile` parses the pattern; `reSearchRegex` matches by position-aware
Brzozowski derivatives. The modelled syntax and its documented boundaries are
listed in the file header. -/

/-- One member of a character class `[...]`: a literal, a range, or one of the
predefined classes `\d \D \w \W \s \S`. -/
inductive ClsItem where
  | single (c : Char)
  | range (lo hi : Char)
  | pre (k : Char)
deriving DecidableEq, Repr

/-- Abstract syntax of the modelled regular expressions. `void` matches
nothing (the failure regex used by derivatives); `bol`/`eol` are `^`/`\A` and
`$`/`\Z`; `wordB`/`nwordB` are `\b`/`\B`. -/
inductive Regex where
  | void
  | eps
  | char (c : Char)
  | anyChar
  | cls (neg : Bool) (items : List ClsItem)
  | pre (k : Char)
  | bol
  | eol
  | wordB
  | nwordB
  | cat (a b : Regex)
  | alt (a b : Regex)
  | star (a : Regex)
deriving DecidableEq, Repr

/-- Python `\w` (ASCII fragment). -/
def isWordChar (c : Char) : Bool :=
  c.isAlphanum || c == '_'

/-- Word-character test on an optional context character (`none` = border). -/
def isWordOpt : Option Char → Bool
  | none => false
  | some c => isWordChar c

/-- Membership in one predefined class (ASCII fragment of Python semantics). -/
def pclassMatch (k c : Char) : Bool :=
  match k with
  | 'd' => c.isDigit
  | 'D' => !c.isDigit
  | 'w' => isWordChar c
  | 'W' => !isWordChar c
  | 's' => c == ' ' || c == '\t' || c == '\n' || c == '\r' || c == '\x0b' || c == '\x0c'
  | 'S' => !(c == ' ' || c == '\t' || c == '\n' || c == '\r' || c == '\x0b' || c == '\x0c')
  | _ => false

/-- Membership in one class item. -/
def clsItemMatch (c : Char) : ClsItem → Bool
  | .single a => c == a
  | .range lo hi => decide (lo ≤ c) && decide (c ≤ hi)
  | .pre k => pclassMatch k c

/-- Membership in a whole (possibly negated) character class. -/
def clsMatch (neg : Bool) (items : List ClsItem) (c : Char) : Bool :=
  if neg then !items.any (clsItemMatch c) else items.any (clsItemMatch c)

/-- Does the regex match the empty string at the current position?  `prev` and
`next` are the characters around the position (`none` at the string borders),
which decide the zero-width assertions. -/
def nullAt (prev next : Option Char) : Regex → Bool
  | .void => false
  | .eps => true
  | .char _ => false
  | .anyChar => false
  | .cls _ _ => false
  | .pre _ => false
  | .bol => prev.isNone
  | .eol => next.isNone
  | .wordB => isWordOpt prev != isWordOpt next
  | .nwordB => isWordOpt prev == isWordOpt next
  | .cat a b => nullAt prev next a && nullAt prev next b
  | .alt a b => nullAt prev next a || nullAt prev next b
  | .star _ => true

/-- Brzozowski derivative by the character `c` consumed at a position whose
left context is `prev` (so the zero-width assertions in head position are
decided with `next = some c`). -/
def derivA (prev : Option Char) : Regex → Char → Regex
  | .void, _ => .void
  | .eps, _ => .void
  | .char a, c => if a == c then .eps else .void
  | .anyChar, c => if c == '\n' then .void else .eps
  | .cls neg items, c => if clsMatch neg items c then .eps else .void
  | .pre k, c => if pclassMatch k c then .eps else .void
  | .bol, _ => .void
  | .eol, _ => .void
  | .wordB, _ => .void
  | .nwordB, _ => .void
  | .cat a b, c =>
    if nullAt prev (some c) a then .alt (.cat (derivA prev a c) b) (derivA prev b c)
    else .cat (derivA prev a c) b
  | .alt a b, c => .alt (derivA prev a c) (derivA prev b c)
  | .star a, c => .cat (derivA prev a c) (.star a)

/-- Does the regex match some prefix of the text, starting at a position with
left context `prev`? -/
def matchPre : Option Char → Regex → List Char → Bool
  | prev, r, [] => nullAt prev none r
  | prev, r, c :: rest => nullAt prev (some c) r || matchPre (some c) (derivA prev r c) rest

/-- Does the regex match starting at some position of the text (`re.search`
semantics), the position's left context being threaded along? -/
def searchFrom : Option Char → Regex → List Char → Bool
  | prev, r, [] => matchPre prev r []
  | prev, r, c :: rest => matchPre prev r (c :: rest) || searchFrom (some c) r rest

/-- `re.search(pattern, text) is not None` for a compiled pattern. -/
def reSearchRegex (r : Regex) (text : String) : Bool :=
  searchFrom none r text.data

/-- The numeric value of a digit string. -/
def natFromDigits (ds : List Char) : Nat :=
  ds.foldl (fun n c => n * 10 + (c.toNat - '0'.toNat)) 0

/-- Splits leading decimal digits off a character list. -/
def spanDigits : List Char → List Char × List Char
  | [] => ([], [])
  | c :: rest =>
    if c.isDigit then
      let p := spanDigits rest
      (c :: p.1, p.2)
    else ([], c :: rest)

/-- Parses the inside of a `{...}` repetition bound: `{m}`, `{m,}`, `{,n}` or
`{m,n}` (at least one digit present), returning the bounds and the rest of the
input; `none` when the braces do not form a bound (then `{` is a literal,
as in Python). -/
def parseBound (s : List Char) : Option (Nat × Option Nat × List Char) :=
  let p1 := spanDigits s
  match p1.2 with
  | '\x7d' :: rest =>
    if p1.1.isEmpty then none
    else some (natFromDigits p1.1, some (natFromDigits p1.1), rest)
  | ',' :: s2 =>
    let p2 := spanDigits s2
    match p2.2 with
    | '\x7d' :: rest =>
      if p1.1.isEmpty && p2.1.isEmpty then none
      else some (natFromDigits p1.1,
        if p2.1.isEmpty then none else some (natFromDigits p2.1), rest)
    | _ => none
  | _ => none

/-- The regex denoted by an escape `\k` outside a class: predefined classes,
assertions, control characters, `\0`, escaped punctuation; an unknown
alphanumeric escape is Python's "bad escape" error (backreference digits are
outside the modelled fragment and also map to the error). -/
def escRegex (k : Char) : Option Regex :=
  match k with
  | 'd' => some (.pre 'd')
  | 'D' => some (.pre 'D')
  | 'w' => some (.pre 'w')
  | 'W' => some (.pre 'W')
  | 's' => some (.pre 's')
  | 'S' => some (.pre 'S')
  | 'A' => some .bol
  | 'Z' => some .eol
  | 'b' => some .wordB
  | 'B' => some .nwordB
  | 'n' => some (.char '\n')
  | 't' => some (.char '\t')
  | 'r' => some (.char '\r')
  | 'f' => some (.char '\x0c')
  | 'v' => some (.char '\x0b')
  | '0' => some (.char (Char.ofNat 0))
  | _ => if k.isAlpha || k.isDigit then none else some (.char k)

/-- The class item denoted by an escape `\k` inside a class. -/
def escClsItem (k : Char) : Option ClsItem :=
  match k with
  | 'd' => some (.pre 'd')
  | 'D' => some (.pre 'D')
  | 'w' => some (.pre 'w')
  | 'W' => some (.pre 'W')
  | 's' => some (.pre 's')
  | 'S' => some (.pre 'S')
  | 'n' => some (.single '\n')
  | 't' => some (.single '\t')
  | 'r' => some (.single '\r')
  | 'f' => some (.single '\x0c')
  | 'v' => some (.single '\x0b')
  | '0' => some (.single (Char.ofNat 0))
  | _ => if k.isAlpha || k.isDigit then none else some (.single k)

/-- Reads one element of a character class (an escape or a literal). -/
def readClsElem : List Char → Option (ClsItem × List Char)
  | '\\' :: k :: rest =>
    match escClsItem k with
    | some it => some (it, rest)
    | none => none
  | '\\' :: [] => none
  | c :: rest => some (.single c, rest)
  | [] => none

/-- Parses the members of a class up to the closing `]`; a `]` in first
position is a literal member, a bad range (descending, or with a class
escape as endpoint) or an unterminated class is an error. -/
def parseClsBody (fuel : Nat) (first : Bool) (s : List Char) :
    Option (List ClsItem × List Char) :=
  match fuel with
  | 0 => none
  | fuel + 1 =>
    match s with
    | [] => none
    | ']' :: rest =>
      if first then
        -- leading `]` is a literal member; fall through to the element reader
        match rest with
        | '-' :: ']' :: rest2 => some ([.single ']', .single '-'], rest2)
        | '-' :: s'' =>
          match readClsElem s'' with
          | some (.single hi, s3) =>
            if hi < ']' then none
            else
              match parseClsBody fuel false s3 with
              | some (items, rest3) => some (.range ']' hi :: items, rest3)
              | none => none
          | _ => none
        | _ =>
          match parseClsBody fuel false rest with
          | some (items, rest2) => some (.single ']' :: items, rest2)
          | none => none
      else some ([], rest)
    | _ =>
      match readClsElem s with
      | none => none
      | some (it, s1) =>
        match s1 with
        | '-' :: ']' :: rest2 => some ([it, .single '-'], rest2)
        | '-' :: s'' =>
          match it with
          | .single lo =>
            match readClsElem s'' with
            | some (.single hi, s3) =>
              if hi < lo then none
              else
                match parseClsBody fuel false s3 with
                | some (items, rest3) => some (.range lo hi :: items, rest3)
                | none => none
            | _ => none
          | _ => none
        | _ =>
          match parseClsBody fuel false s1 with
          | some (items, rest2) => some (it :: items, rest2)
          | none => none

/-- Parses a character class after its opening `[` (optional leading `^`). -/
def parseCls (fuel : Nat) (s : List Char) : Option (Regex × List Char) :=
  match s with
  | '^' :: s1 =>
    match parseClsBody fuel true s1 with
    | some (items, rest) => some (.cls true items, rest)
    | none => none
  | _ =>
    match parseClsBody fuel true s with
    | some (items, rest) => some (.cls false items, rest)
    | none => none

/-- `r` concatenated `n` times. -/
def repCat (r : Regex) : Nat → Regex
  | 0 => .eps
  | n + 1 => .cat r (repCat r n)

/-- `r`, optional, concatenated `n` times. -/
def repOpt (r : Regex) : Nat → Regex
  | 0 => .eps
  | n + 1 => .cat (.alt r .eps) (repOpt r n)

/-- Consumes the lazy marker `?` after a quantifier (laziness does not change
whether a match exists, which is all `re.search`'s boolean use needs). -/
def applyLazy : List Char → List Char
  | '?' :: rest => rest
  | s => s

/-- Does the input start with another quantifier (Python's "multiple repeat"
error after a quantified atom)? -/
def isQuantStart : List Char → Bool
  | '*' :: _ => true
  | '+' :: _ => true
  | '?' :: _ => true
  | '\x7b' :: rest => (parseBound rest).isSome
  | _ => false

/-- Applies an optional quantifier (`*`, `+`, `?`, `{m,n}`, each with an
optional lazy `?`) to a parsed atom; a second quantifier is an error, and
`{m,n}` with `n < m` is Python's "min repeat greater than max repeat" error. -/
def parseQuant (r : Regex) (s : List Char) : Option (Regex × List Char) :=
  match s with
  | '*' :: rest =>
    let rest' := applyLazy rest
    if isQuantStart rest' then none else some (.star r, rest')
  | '+' :: rest =>
    let rest' := applyLazy rest
    if isQuantStart rest' then none else some (.cat r (.star r), rest')
  | '?' :: rest =>
    let rest' := applyLazy rest
    if isQuantStart rest' then none else some (.alt r .eps, rest')
  | '\x7b' :: rest =>
    match parseBound rest with
    | some (lo, hi, rest1) =>
      let rest' := applyLazy rest1
      if isQuantStart rest' then none
      else
        match hi with
        | none => some (.cat (repCat r lo) (.star r), rest')
        | some h =>
          if h < lo then none
          else some (.cat (repCat r lo) (repOpt r (h - lo)), rest')
    | none => some (r, s)
  | _ => some (r, s)

/-- Skips a non-empty group name up to `>`. -/
def skipName1 : List Char → Option (List Char)
  | [] => none
  | '>' :: rest => some rest
  | _ :: rest => skipName1 rest

/-- See `skipName1`; an empty name is an error. -/
def skipName : List Char → Option (List Char)
  | '>' :: _ => none
  | s => skipName1 s

/-- The value of a hexadecimal digit (either case). -/
def hexVal (c : Char) : Option Nat :=
  if c.isDigit then some (c.toNat - '0'.toNat)
  else
    let lc := c.toLower
    if 'a' ≤ lc && lc ≤ 'f' then some (lc.toNat + 10 - 'a'.toNat)
    else none

mutual

/-- Alternation level of the pattern grammar: `seq ('|' seq)*`. -/
def parseAlt (fuel : Nat) (s : List Char) : Option (Regex × List Char) :=
  match fuel with
  | 0 => none
  | fuel + 1 =>
    match parseSeq fuel s with
    | none => none
    | some (r, s1) =>
      match s1 with
      | '|' :: rest =>
        match parseAlt fuel rest with
        | some (r2, s2) => some (.alt r r2, s2)
        | none => none
      | _ => some (r, s1)

/-- Concatenation level: a possibly empty run of quantified atoms, stopping
before `|`, `)` or the end of the pattern. -/
def parseSeq (fuel : Nat) (s : List Char) : Option (Regex × List Char) :=
  match fuel with
  | 0 => none
  | fuel + 1 =>
    match s with
    | [] => some (.eps, [])
    | c :: _ =>
      if c == '|' || c == ')' then some (.eps, s)
      else
        match parseAtomQ fuel s with
        | none => none
        | some (r1, s1) =>
          match parseSeq fuel s1 with
          | some (r2, s2) => some (.cat r1 r2, s2)
          | none => none

/-- One atom with its optional quantifier. -/
def parseAtomQ (fuel : Nat) (s : List Char) : Option (Regex × List Char) :=
  match fuel with
  | 0 => none
  | fuel + 1 =>
    match parseAtom fuel s with
    | none => none
    | some (r, s1) => parseQuant r s1

/-- One atom: group (plain, non-capturing `(?:`, or named `(?P<name>`; other
`(?` extension syntax is outside the modelled fragment and maps to the
error), class, `.`, anchor, escape, `\xhh`, or literal; a leading quantifier
is Python's "nothing to repeat" error, and `{` is a literal exactly when it
does not open a valid bound. -/
def parseAtom (fuel : Nat) (s : List Char) : Option (Regex × List Char) :=
  match fuel with
  | 0 => none
  | fuel + 1 =>
    match s with
    | [] => none
    | '(' :: '?' :: ':' :: rest => parseGroup fuel rest
    | '(' :: '?' :: 'P' :: '<' :: rest =>
      match skipName rest with
      | some rest2 => parseGroup fuel rest2
      | none => none
    | '(' :: '?' :: _ => none
    | '(' :: rest => parseGroup fuel rest
    | '[' :: rest => parseCls (rest.length + 1) rest
    | '.' :: rest => some (.anyChar, rest)
    | '^' :: rest => some (.bol, rest)
    | '$' :: rest => some (.eol, rest)
    | '*' :: _ => none
    | '+' :: _ => none
    | '?' :: _ => none
    | '\x7b' :: rest =>
      match parseBound rest with
      | some _ => none
      | none => some (.char '\x7b', rest)
    | '\\' :: 'x' :: h1 :: h2 :: rest =>
      match hexVal h1, hexVal h2 with
      | some v1, some v2 => some (.char (Char.ofNat (16 * v1 + v2)), rest)
      | _, _ => none
    | '\\' :: 'x' :: _ => none
    | '\\' :: k :: rest =>
      match escRegex k with
      | some r => some (r, rest)
      | none => none
    | '\\' :: [] => none
    | c :: rest => some (.char c, rest)

/-- The body of a group, closed by `)` (else Python's "missing ), unterminated
subpattern" error). -/
def parseGroup (fuel : Nat) (s : List Char) : Option (Regex × List Char) :=
  match fuel with
  | 0 => none
  | fuel + 1 =>
    match parseAlt fuel s with
    | some (r, ')' :: rest) => some (r, rest)
    | _ => none

end

/-- `re.compile(pattern)` for the modelled fragment: `some` of the syntax tree
on success, `none` for `re.error`; input left over after the alternation level
is an unbalanced `)`. The fuel strictly dominates the parser's call depth,
since every cycle through the mutual parsers consumes input. -/
def reCompile (pat : String) : Option Regex :=
  match parseAlt (8 * pat.length + 16) pat.data with
  | some (r, []) => some r
  | _ => none

/-- The match condition of `search_contacts` (phonebook.py, lines 163-177):
the compiled lowercased query matches the lowercased first name, lowercased
last name, lowercased full name, or the raw phone number; when both date
bounds are given the creation time must lie inside them inclusively. -/
def searchPred (re : Regex) (start_date end_date : Option Nat) (c : Contact) : Bool :=
  (reSearchRegex re c.first_name.toLower || reSearchRegex re c.last_name.toLower ||
   reSearchRegex re (fullNameLower c) || reSearchRegex re c.phone_number) &&
  (match start_date, end_date with
   | some a, some b => decide (a ≤ c.time_created) && decide (c.time_created ≤ b)
   | _, _ => true)

/-- Result of `search_contacts`: state, echoed matches, the returned list
(the Python local is called `matches`, a reserved word here), and any escaped
`re.error`. -/
structure SearchResult where
  pb : PhoneBook
  found : List Contact
  printed : List Msg
  exn : Option String
deriving DecidableEq, Repr

/-- `PhoneBook.search_contacts` (phonebook.py, lines 159-190): filters the
contact list in order by `searchPred`, prints the matches (or a no-results
message), logs the query and match count, and returns the matches. The raw
lowercased query is the `re.search` pattern, compiled at the first call inside
the loop: on a non-empty contact list an invalid pattern raises `re.error`
out of the first iteration — nothing matched, printed or logged — while on an
empty list the loop body never runs, so even an invalid pattern logs normally. -/
def PhoneBook.search_contacts (pb : PhoneBook) (search_string : String)
    (start_date end_date : Option Nat) (t : Nat) : SearchResult :=
  let ss := search_string.toLower
  if pb.contacts_list.isEmpty then
    let ms : List Contact := []
    { pb := pb.log_operation t
        ("Searched for contacts with query: " ++ ss ++ ", found " ++
          toString ms.length ++ " matches"),
      found := ms, printed := [Msg.searchNoResults ss], exn := none }
  else
    match reCompile ss with
    | none => { pb := pb, found := [], printed := [], exn := some "re.error" }
    | some re =>
      let ms := pb.contacts_list.filter (searchPred re start_date end_date)
      { pb := pb.log_operation t
          ("Searched for contacts with query: " ++ ss ++ ", found " ++
            toString ms.length ++ " matches"),
        found := ms,
        printed := if ms.isEmpty then [Msg.searchNoResults ss]
          else ms.map (fun c => Msg.searchHit c.fields),
        exn := none }

/-- Stable insertion placing `a` before the first element not strictly below it. -/
def insertC (lt : Contact → Contact → Bool) (a : Contact) : List Contact → List Contact
  | [] => [a]
  | b :: l => if lt b a then b :: insertC lt a l else a :: b :: l

/-- Stable insertion sort, modelling Python's stable `list.sort(key=...)`. -/
def isortC (lt : Contact → Contact → Bool) : List Contact → List Contact
  | [] => []
  | a :: l => insertC lt a (isortC lt l)

/-- Strict comparison for `key=lambda x: x.last_name`. -/
def alphaLt (a b : Contact) : Bool :=
  decide (a.last_name < b.last_name)

/-- Strict comparison for `key=lambda x: x.last_name[0]` (defined only when the
last names are non-empty; the default is irrelevant under that guard). -/
def groupLt (a b : Contact) : Bool :=
  decide (a.last_name.data.getD 0 ' ' < b.last_name.data.getD 0 ' ')

/-- `PhoneBook.sort_contacts` (phonebook.py, lines 193-202): stable in-place
sort by last name, or by last-name initial (raising `IndexError` through the
caller when some last name is empty, the list left unchanged), or an error
message on any other sort type; each completed branch logs one line. -/
def PhoneBook.sort_contacts (pb : PhoneBook) (sort_type : String) (t : Nat) : OpResult :=
  if sort_type == "alphabetical" then
    { pb := (PhoneBook.mk (isortC alphaLt pb.contacts_list) pb.audit_log).log_operation t
        "Sorted contacts alphabetically by last name.",
      printed := [], exn := none }
  else if sort_type == "group" then
    if pb.contacts_list.all (fun c => !c.last_name.isEmpty) then
      { pb := (PhoneBook.mk (isortC groupLt pb.contacts_list) pb.audit_log).log_operation t
          "Grouped contacts by last name initial.",
        printed := [], exn := none }
    else
      -- `list.sort` computes all keys first and reinstates the list when a key
      -- raises, so the state is unchanged and the IndexError escapes.
      { pb := pb, printed := [], exn := some "IndexError" }
  else
    { pb := pb.log_operation t "Attempted to sort contacts with invalid sort type.",
      printed := [Msg.sortInvalid], exn := none }

/-- `PhoneBook.view_audit_log` (phonebook.py, lines 205-209): echoes the audit
file line by line; appends nothing. -/
def PhoneBook.view_audit_log (pb : PhoneBook) : OpResult :=
  { pb := pb, printed := pb.audit_log.map Msg.auditLine, exn := none }

/-- `PhoneBook.clear_audit_log` (phonebook.py, lines 212-215): truncates the
audit file; appends nothing. -/
def PhoneBook.clear_audit_log (pb : PhoneBook) : OpResult :=
  { pb := PhoneBook.mk pb.contacts_list [], printed := [Msg.auditCleared], exn := none }

/-- Python reference semantics for `update_contact`: the contact argument is an
object reference, and the directory's list holds references. The heap maps
object identities to contact values; `contact_ids` is `contacts_list` as held
by the directory. -/
structure HeapState where
  contact_ids : List Nat
  heap : Nat → Contact
  audit_log : List String

/-- `update_contact` under reference semantics: the same computation as
`PhoneBook.update_contact` (which reads neither `contacts_list` nor the heap
beyond the passed contact), with the mutation written back through the
contact's reference. -/
def HeapState.update_contact (st : HeapState) (cid : Nat)
    (first_name last_name phone_number email address : Option String) (t : Nat) :
    HeapState × List Msg :=
  let r := PhoneBook.update_contact (PhoneBook.mk [] st.audit_log) (st.heap cid)
    first_name last_name phone_number email address t
  ({ contact_ids := st.contact_ids,
     heap := fun i => if i = cid then r.contact else st.heap i,
     audit_log := r.pb.audit_log }, r.printed)

/-! ### Helper lemmas -/

/-- The empty pattern compiles, to the empty regex. -/
theorem reCompile_empty : reCompile "" = some Regex.eps := rfl

/-- The empty regex matches every text at its first position. -/
theorem searchFrom_eps (prev : Option Char) (s : List Char) :
    searchFrom prev Regex.eps s = true := by
  cases s <;> simp [searchFrom, matchPre, nullAt]

/-- With the (compiled) empty query and no date bounds, every contact matches. -/
theorem searchPred_eps (c : Contact) : searchPred Regex.eps none none c = true := by
  simp [searchPred, reSearchRegex, searchFrom_eps]

theorem audit_log_log_operation (pb : PhoneBook) (t : Nat) (s : String) :
    (pb.log_operation t s).audit_log = pb.audit_log ++ [logLine t s] := rfl

/-- Contacts produced by the batch row loop before its first short row:
one per leading row with at least 3 fields. -/
def goodContacts (t : Nat) : List (List String) → List Contact
  | [] => []
  | row :: rest =>
    match rowContact row t with
    | some c => c :: goodContacts t rest
    | none => []

theorem rowContact_some_of_good (row : List String) (t : Nat) (h : 2 < row.length) :
    ∃ c, rowContact row t = some c := by
  unfold rowContact
  rw [dif_pos h]
  exact ⟨_, rfl⟩

theorem rowContact_none_of_short (row : List String) (t : Nat) (h : ¬2 < row.length) :
    rowContact row t = none := by
  unfold rowContact
  rw [dif_neg h]

theorem addRows_exn (t : Nat) (rows : List (List String)) : ∀ acc,
    ((addRows t acc rows).2 = none ↔ rows.all (fun r => decide (2 < r.length)) = true) := by
  induction rows with
  | nil => intro acc; simp [addRows]
  | cons row rest ih =>
    intro acc
    by_cases h : 2 < row.length
    · obtain ⟨c, hc⟩ := rowContact_some_of_good row t h
      simp [addRows, hc, ih, h]
    · simp [addRows, rowContact_none_of_short row t h, h]

theorem delRows_exn (t : Nat) (rows : List (List String)) : ∀ acc,
    ((delRows t acc rows).2.2 = none ↔ rows.all (fun r => decide (2 < r.length)) = true) := by
  induction rows with
  | nil => intro acc; simp [delRows]
  | cons row rest ih =>
    intro acc
    by_cases h : 2 < row.length
    · obtain ⟨c, hc⟩ := rowContact_some_of_good row t h
      cases hrem : removeFirstEq acc c with
      | some acc' => simp [delRows, hc, hrem, ih, h]
      | none => simp [delRows, hc, hrem, ih, h]
    · simp [delRows, rowContact_none_of_short row t h, h]

theorem addRows_fst (t : Nat) (rows : List (List String)) : ∀ acc,
    (addRows t acc rows).1 = acc ++ goodContacts t rows := by
  induction rows with
  | nil => intro acc; simp [addRows, goodContacts]
  | cons row rest ih =>
    intro acc
    cases hc : rowContact row t with
    | some c => simp [addRows, goodContacts, hc, ih]
    | none => simp [addRows, goodContacts, hc]

theorem goodContacts_of_all_good (t : Nat) (rows : List (List String))
    (h : rows.all (fun r => decide (2 < r.length)) = true) :
    goodContacts t rows = rows.filterMap (fun r => rowContact r t) ∧
    (goodContacts t rows).length = rows.length := by
  induction rows with
  | nil => simp [goodContacts]
  | cons row rest ih =>
    simp only [List.all_cons, Bool.and_eq_true, decide_eq_true_eq] at h
    obtain ⟨c, hc⟩ := rowContact_some_of_good row t h.1
    obtain ⟨ih1, ih2⟩ := ih h.2
    simp [goodContacts, hc, ih1, ih2, List.filterMap_cons]
    intro r hr
    obtain ⟨c', hc'⟩ := rowContact_some_of_good r t
      (of_decide_eq_true (List.all_eq_true.mp h.2 r hr))
    simp [hc']

/-! ### Claims -/

/-- C9: a freshly constructed Contact has an empty history, and its
`updated_at` timestamp equals its `created_at` timestamp. -/
theorem spec2_C9_fresh_contact (first_name last_name phone_number : String)
    (email address : Option String) (t : Nat) :
    (Contact.init first_name last_name phone_number email address t).update_history = [] ∧
    (Contact.init first_name last_name phone_number email address t).time_updated =
      (Contact.init first_name last_name phone_number email address t).time_created :=
  ⟨rfl, rfl⟩

/-- C1: the Directory update operation never appends a history entry to the
contact — it assigns the fields directly instead of delegating to
`Contact.update`, so after any number of successful update calls the history
still has its original length, contradicting the claimed `len(history) == N`. -/
theorem spec2_C1_history_not_tracked (pb : PhoneBook) (contact : Contact)
    (first_name last_name phone_number email address : Option String) (t : Nat) :
    (pb.update_contact contact first_name last_name phone_number email address
      t).contact.update_history = contact.update_history := by
  unfold PhoneBook.update_contact
  split
  · rfl
  · split <;> rfl

/-- C8: searching with the empty query and no time bounds returns every
contact in directory order, and logs a match count equal to the directory
size. -/
theorem spec2_C8_empty_search (pb : PhoneBook) (t : Nat) :
    (pb.search_contacts "" none none t).found = pb.contacts_list ∧
    (pb.search_contacts "" none none t).found.length = pb.contacts_list.length ∧
    (pb.search_contacts "" none none t).pb.audit_log = pb.audit_log ++
      [logLine t ("Searched for contacts with query: , found " ++
        toString pb.contacts_list.length ++ " matches")] := by
  have hlow : ("" : String).toLower = "" := by
    show String.mapAux Char.toLower 0 "" = ""
    unfold String.mapAux
    rw [dif_pos (by decide)]
  by_cases hemp : pb.contacts_list.isEmpty = true
  · have hnil : pb.contacts_list = [] := by
      cases hl : pb.contacts_list with
      | nil => rfl
      | cons x xs => rw [hl] at hemp; simp [List.isEmpty] at hemp
    refine ⟨?_, ?_, ?_⟩ <;>
      simp [PhoneBook.search_contacts, hlow, hemp, hnil, PhoneBook.log_operation]
  · have hfil : pb.contacts_list.filter (searchPred Regex.eps none none) = pb.contacts_list :=
      List.filter_eq_self.mpr (fun a _ => searchPred_eps a)
    refine ⟨?_, ?_, ?_⟩ <;>
      simp [PhoneBook.search_contacts, hlow, hemp, reCompile_empty, hfil,
        PhoneBook.log_operation]

/-- C2 counterexample: `display_contacts` (render_all) appends no audit-log
line at all, where the claim requires exactly one line per operation. -/
theorem spec2_C2_cex :
    ((PhoneBook.mk [] []).display_contacts).pb.audit_log.length = 0 ∧
    ((PhoneBook.mk [] []).display_contacts).pb.audit_log.length ≠ 1 := by
  decide

/-- C2 amended: add and delete append exactly one audit line on completion,
success or failure; search appends exactly one line exactly when it does not
raise — it raises `re.error`, before logging, exactly when the contact list is
non-empty (so the loop actually reaches `re.search`) and the query does not
compile as a regular expression; sort appends exactly one line exactly when it
does not raise; update appends one line only when validation passes; the batch
operations append one line only when the file exists and the row loop raises
no exception; render_all, render_audit_log, and clear_audit_log append none. -/
theorem spec2_C2_amended (pb : PhoneBook) (c : Contact) (fn filename q s : String)
    (rows : List (List String)) (ex : Bool)
    (f l p e a : Option String) (sd ed : Option Nat) (t : Nat) :
    (pb.add_contact c t).audit_log.length = pb.audit_log.length + 1 ∧
    (pb.delete_contact fn t).pb.audit_log.length = pb.audit_log.length + 1 ∧
    (pb.search_contacts q sd ed t).pb.audit_log.length =
      pb.audit_log.length + (if (pb.search_contacts q sd ed t).exn = none then 1 else 0) ∧
    ((pb.search_contacts q sd ed t).exn = none ↔
      (pb.contacts_list.isEmpty = true ∨ (reCompile q.toLower).isSome = true)) ∧
    (pb.sort_contacts s t).pb.audit_log.length =
      pb.audit_log.length + (if (pb.sort_contacts s t).exn = none then 1 else 0) ∧
    (pb.update_contact c f l p e a t).pb.audit_log.length =
      pb.audit_log.length +
        (if truthy p && !is_valid_phone (p.getD "") || truthy e && !is_valid_email (e.getD "")
          then 0 else 1) ∧
    (pb.batch_add_contacts filename rows ex t).pb.audit_log.length =
      pb.audit_log.length +
        (if ex && ((addRows t pb.contacts_list rows.tail).2 == none) then 1 else 0) ∧
    (pb.batch_delete_contacts filename rows ex t).pb.audit_log.length =
      pb.audit_log.length +
        (if ex && ((delRows t pb.contacts_list rows.tail).2.2 == none) then 1 else 0) ∧
    (pb.display_contacts).pb.audit_log = pb.audit_log ∧
    (pb.view_audit_log).pb.audit_log = pb.audit_log ∧
    (pb.clear_audit_log).pb.audit_log = [] := by
  refine ⟨?_, ?_, ?_, ?_, ?_, ?_, ?_, ?_, ?_, ?_, ?_⟩
  · simp [PhoneBook.add_contact, PhoneBook.log_operation]
  · unfold PhoneBook.delete_contact
    cases hfind : pb.contacts_list.find? (fun x => fullNameLower x == fn.toLower) <;>
      simp [hfind, PhoneBook.log_operation]
  · by_cases hemp : pb.contacts_list.isEmpty = true
    · simp [PhoneBook.search_contacts, hemp, PhoneBook.log_operation]
    · cases hc : reCompile q.toLower with
      | none => simp [PhoneBook.search_contacts, hemp, hc]
      | some re => simp [PhoneBook.search_contacts, hemp, hc, PhoneBook.log_operation]
  · by_cases hemp : pb.contacts_list.isEmpty = true
    · simp [PhoneBook.search_contacts, hemp]
    · cases hc : reCompile q.toLower with
      | none => simp [PhoneBook.search_contacts, hemp, hc]
      | some re => simp [PhoneBook.search_contacts, hemp, hc]
  · by_cases h1 : (s == "alphabetical") = true
    · simp [PhoneBook.sort_contacts, h1, PhoneBook.log_operation]
    · by_cases h2 : (s == "group") = true
      · by_cases h3 : pb.contacts_list.all (fun x => !x.last_name.isEmpty) = true
        · simp [PhoneBook.sort_contacts, h1, h2, h3, PhoneBook.log_operation]
        · simp [PhoneBook.sort_contacts, h1, h2, h3]
      · simp [PhoneBook.sort_contacts, h1, h2, PhoneBook.log_operation]
  · by_cases hp : (truthy p && !is_valid_phone (p.getD "")) = true
    · simp [PhoneBook.update_contact, hp]
    · by_cases he : (truthy e && !is_valid_email (e.getD "")) = true
      · simp [PhoneBook.update_contact, hp, he]
      · simp [PhoneBook.update_contact, hp, he, PhoneBook.log_operation]
  · cases ex with
    | false => simp [PhoneBook.batch_add_contacts]
    | true =>
      cases hx : (addRows t pb.contacts_list rows.tail).2 with
      | none => simp [PhoneBook.batch_add_contacts, hx, PhoneBook.log_operation]
      | some err => simp [PhoneBook.batch_add_contacts, hx]
  · cases ex with
    | false => simp [PhoneBook.batch_delete_contacts]
    | true =>
      cases hx : (delRows t pb.contacts_list rows.tail).2.2 with
      | none => simp [PhoneBook.batch_delete_contacts, hx, PhoneBook.log_operation]
      | some err => simp [PhoneBook.batch_delete_contacts, hx]
  · unfold PhoneBook.display_contacts
    split <;> rfl
  · rfl
  · rfl

/-- C3 counterexample: an update supplying the malformed phone number `""`
together with a new first name is not aborted — the first name changes, even
though the supplied phone number does not match the phone pattern. -/
theorem spec2_C3_cex :
    ((PhoneBook.mk [Contact.init "Ann" "Bee" "(613) 555-0000" none none 0] []).update_contact
        (Contact.init "Ann" "Bee" "(613) 555-0000" none none 0)
        (some "X") none (some "") none none 1).contact.first_name = "X" ∧
    is_valid_phone "" = false := by
  decide

/-- C3 amended: when the supplied phone number is non-empty and does not match
the phone pattern, or the supplied email is non-empty and does not match the
email pattern, the update is aborted atomically: the contact is unchanged (so
no history entry), the phonebook state including the audit log is unchanged,
and the specific validation failure is the one reported. -/
theorem spec2_C3_amended (pb : PhoneBook) (c : Contact)
    (f l p e a : Option String) (t : Nat)
    (h : ((truthy p && !is_valid_phone (p.getD "")) ||
          (truthy e && !is_valid_email (e.getD ""))) = true) :
    (pb.update_contact c f l p e a t).contact = c ∧
    (pb.update_contact c f l p e a t).pb = pb ∧
    (pb.update_contact c f l p e a t).printed =
      (if truthy p && !is_valid_phone (p.getD "") then [Msg.invalidPhone]
        else [Msg.invalidEmail]) := by
  by_cases hp : (truthy p && !is_valid_phone (p.getD "")) = true
  · simp [PhoneBook.update_contact, hp]
  · have he : (truthy e && !is_valid_email (e.getD "")) = true := by
      simpa [hp] using h
    simp [PhoneBook.update_contact, hp, he]

/-- C3 witness: the amended abort property at a concrete malformed phone. -/
theorem spec2_C3_witness :
    ((PhoneBook.mk [] []).update_contact (Contact.init "Ann" "Bee" "(613) 555-0000" none none 0)
        (some "X") none (some "555-1234") none none 1).contact =
      Contact.init "Ann" "Bee" "(613) 555-0000" none none 0 ∧
    ((PhoneBook.mk [] []).update_contact (Contact.init "Ann" "Bee" "(613) 555-0000" none none 0)
        (some "X") none (some "555-1234") none none 1).pb = PhoneBook.mk [] [] ∧
    ((PhoneBook.mk [] []).update_contact (Contact.init "Ann" "Bee" "(613) 555-0000" none none 0)
        (some "X") none (some "555-1234") none none 1).printed =
      (if truthy (some "555-1234") && !is_valid_phone ((some "555-1234").getD "")
        then [Msg.invalidPhone] else [Msg.invalidEmail]) :=
  spec2_C3_amended (PhoneBook.mk [] []) (Contact.init "Ann" "Bee" "(613) 555-0000" none none 0)
    (some "X") none (some "555-1234") none none 1 (by decide)

/-- C4 amended: batch import itself discards the first record of the file as a
header; it then constructs exactly one Contact per remaining row and appends
each unconditionally, with no validation and no deduplication, completing
without an exception and logging one summary line. -/
theorem spec2_C4_amended (pb : PhoneBook) (filename : String)
    (rows : List (List String)) (t : Nat)
    (h : rows.tail.all (fun r => decide (2 < r.length)) = true) :
    (pb.batch_add_contacts filename rows true t).pb.contacts_list =
      pb.contacts_list ++ rows.tail.filterMap (fun r => rowContact r t) ∧
    (pb.batch_add_contacts filename rows true t).pb.contacts_list.length =
      pb.contacts_list.length + rows.tail.length ∧
    (pb.batch_add_contacts filename rows true t).exn = none ∧
    (pb.batch_add_contacts filename rows true t).pb.audit_log =
      pb.audit_log ++ [logLine t ("Batch added contacts from file: " ++ filename)] := by
  have hx : (addRows t pb.contacts_list rows.tail).2 = none :=
    (addRows_exn t rows.tail pb.contacts_list).mpr h
  have hfst := addRows_fst t rows.tail pb.contacts_list
  obtain ⟨hgood, hlen⟩ := goodContacts_of_all_good t rows.tail h
  refine ⟨?_, ?_, ?_, ?_⟩
  · simp only [PhoneBook.batch_add_contacts, if_true, hx, PhoneBook.log_operation]
    rw [hfst, hgood]
  · simp only [PhoneBook.batch_add_contacts, if_true, hx, PhoneBook.log_operation]
    rw [hfst]
    simp [hlen]
  · simp [PhoneBook.batch_add_contacts, hx]
  · simp [PhoneBook.batch_add_contacts, hx, PhoneBook.log_operation]

/-- C4 witness: the amended import property on a concrete two-record file. -/
theorem spec2_C4_witness :
    ((PhoneBook.mk [] []).batch_add_contacts "contacts.csv"
        [["h1", "h2", "h3"], ["Ann", "Bee", "(613) 555-0000"]] true 0).pb.contacts_list =
      [] ++ [["h1", "h2", "h3"], ["Ann", "Bee", "(613) 555-0000"]].tail.filterMap
        (fun r => rowContact r 0) ∧
    ((PhoneBook.mk [] []).batch_add_contacts "contacts.csv"
        [["h1", "h2", "h3"], ["Ann", "Bee", "(613) 555-0000"]] true 0).pb.contacts_list.length =
      (PhoneBook.mk [] []).contacts_list.length +
        [["h1", "h2", "h3"], ["Ann", "Bee", "(613) 555-0000"]].tail.length ∧
    ((PhoneBook.mk [] []).batch_add_contacts "contacts.csv"
        [["h1", "h2", "h3"], ["Ann", "Bee", "(613) 555-0000"]] true 0).exn = none ∧
    ((PhoneBook.mk [] []).batch_add_contacts "contacts.csv"
        [["h1", "h2", "h3"], ["Ann", "Bee", "(613) 555-0000"]] true 0).pb.audit_log =
      [] ++ [logLine 0 ("Batch added contacts from file: " ++ "contacts.csv")] :=
  spec2_C4_amended (PhoneBook.mk [] []) "contacts.csv"
    [["h1", "h2", "h3"], ["Ann", "Bee", "(613) 555-0000"]] 0 (by decide)

/-- C4 counterexample: on a file of two rows of 3 fields each, batch import
constructs only one contact — the core itself discards the first record as a
header — while the claim requires one contact per row (two). -/
theorem spec2_C4_cex :
    ((PhoneBook.mk [] []).batch_add_contacts "contacts.csv"
        [["a", "b", "c"], ["d", "e", "f"]] true 0).pb.contacts_list.length = 1 ∧
    ((PhoneBook.mk [] []).batch_add_contacts "contacts.csv"
        [["a", "b", "c"], ["d", "e", "f"]] true 0).pb.contacts_list.length ≠ 2 := by
  decide

/-- C5 counterexample: `sort("group")` on a directory holding a contact with
an empty last name raises an uncaught IndexError instead of reporting a
failure outcome. -/
theorem spec2_C5_cex :
    ((PhoneBook.mk [Contact.init "Al" "" "(613) 555-0000" none none 0] []).sort_contacts
        "group" 1).exn = some "IndexError" := by
  decide

/-- C5 amended: delete, update, and display never let an exception escape, but
the sort operation raises an uncaught IndexError exactly when the mode is
"group" and some contact has an empty last name, and each batch operation
raises an uncaught IndexError exactly when the file exists and some data row
(after the discarded first record) has fewer than 3 fields; all other failures
are reported outcomes. -/
theorem spec2_C5_amended (pb : PhoneBook) (c : Contact) (fn filename s : String)
    (rows : List (List String)) (ex : Bool) (f l p e a : Option String) (t : Nat) :
    (pb.delete_contact fn t).exn = none ∧
    (pb.update_contact c f l p e a t).exn = none ∧
    (pb.display_contacts).exn = none ∧
    ((pb.sort_contacts s t).exn = none ↔
      ¬(s = "group" ∧ pb.contacts_list.any (fun x => x.last_name.isEmpty) = true)) ∧
    ((pb.batch_add_contacts filename rows ex t).exn = none ↔
      (ex = true → rows.tail.all (fun r => decide (2 < r.length)) = true)) ∧
    ((pb.batch_delete_contacts filename rows ex t).exn = none ↔
      (ex = true → rows.tail.all (fun r => decide (2 < r.length)) = true)) := by
  refine ⟨?_, ?_, ?_, ?_, ?_, ?_⟩
  · unfold PhoneBook.delete_contact
    cases hfind : pb.contacts_list.find? (fun x => fullNameLower x == fn.toLower) <;>
      simp [hfind]
  · by_cases hp : (truthy p && !is_valid_phone (p.getD "")) = true
    · simp [PhoneBook.update_contact, hp]
    · by_cases he : (truthy e && !is_valid_email (e.getD "")) = true
      · simp [PhoneBook.update_contact, hp, he]
      · simp [PhoneBook.update_contact, hp, he]
  · unfold PhoneBook.display_contacts
    split <;> rfl
  · by_cases h1 : s = "alphabetical"
    · subst h1
      simp [PhoneBook.sort_contacts]
    · by_cases h2 : s = "group"
      · subst h2
        by_cases h3 : pb.contacts_list.all (fun x => !x.last_name.isEmpty) = true
        · have hexn : (pb.sort_contacts "group" t).exn = none := by
            unfold PhoneBook.sort_contacts
            rw [if_neg (by decide), if_pos (by decide), if_pos h3]
          rw [hexn]
          simp only [true_iff]
          rintro ⟨-, hany⟩
          obtain ⟨x, hx, hemp⟩ := List.any_eq_true.mp hany
          have hall := List.all_eq_true.mp h3 x hx
          rw [hemp] at hall
          simp at hall
        · have hexn : (pb.sort_contacts "group" t).exn = some "IndexError" := by
            unfold PhoneBook.sort_contacts
            rw [if_neg (by decide), if_pos (by decide), if_neg h3]
          rw [hexn]
          refine iff_of_false (by simp) (not_not_intro ⟨rfl, ?_⟩)
          rw [List.any_eq_true]
          by_contra hno
          push_neg at hno
          refine h3 (List.all_eq_true.mpr (fun x hx => ?_))
          have := hno x hx
          simp only [Bool.not_eq_true] at this ⊢
          simp [this]
      · have hb1 : (s == "alphabetical") = false := beq_eq_false_iff_ne.mpr h1
        have hb2 : (s == "group") = false := beq_eq_false_iff_ne.mpr h2
        simp [PhoneBook.sort_contacts, hb1, hb2, h2]
  · cases ex with
    | false => simp [PhoneBook.batch_add_contacts]
    | true =>
      have := addRows_exn t rows.tail pb.contacts_list
      cases hx : (addRows t pb.contacts_list rows.tail).2 with
      | none => simp [PhoneBook.batch_add_contacts, hx, ← this]
      | some err => simp [PhoneBook.batch_add_contacts, hx, ← this]
  · cases ex with
    | false => simp [PhoneBook.batch_delete_contacts]
    | true =>
      have := delRows_exn t rows.tail pb.contacts_list
      cases hx : (delRows t pb.contacts_list rows.tail).2.2 with
      | none => simp [PhoneBook.batch_delete_contacts, hx, ← this]
      | some err => simp [PhoneBook.batch_delete_contacts, hx, ← this]

theorem eqPy_self (c : Contact) : c.eqPy c = true := by
  simp [Contact.eqPy]

theorem eqPy_iff_fields (x c : Contact) : x.eqPy c = true ↔ x.fields = c.fields := by
  simp [Contact.eqPy]

/-- The lowercased full name depends only on the five compared fields. -/
theorem fullNameLower_congr (x c : Contact) (h : x.fields = c.fields) :
    fullNameLower x = fullNameLower c := by
  have h1 : x.first_name = c.first_name := congrArg FieldValues.first_name h
  have h2 : x.last_name = c.last_name := congrArg FieldValues.last_name h
  simp [fullNameLower, h1, h2]

/-- A successful `find?` returns a member that satisfies the test. -/
theorem findPy_some (p : Contact → Bool) :
    ∀ (l : List Contact) (c : Contact), l.find? p = some c → p c = true ∧ c ∈ l := by
  intro l
  induction l with
  | nil => intro c h; simp at h
  | cons x xs ih =>
    intro c h
    cases hx : p x with
    | true =>
      rw [List.find?_cons, hx] at h
      obtain rfl : x = c := Option.some.inj h
      exact ⟨hx, by simp⟩
    | false =>
      rw [List.find?_cons, hx] at h
      obtain ⟨h1, h2⟩ := ih c h
      exact ⟨h1, List.mem_cons_of_mem _ h2⟩

/-- Removing the first contact structurally equal to the first name match is
removing the first name match: no earlier contact can be structurally equal,
since structural equality preserves the full name. -/
theorem removeFirstEq_find (fn : String) :
    ∀ (l : List Contact) (c : Contact),
      l.find? (fun x => fullNameLower x == fn) = some c →
      removeFirstEq l c = some (l.eraseP (fun x => fullNameLower x == fn)) := by
  intro l
  induction l with
  | nil => intro c h; simp at h
  | cons x xs ih =>
    intro c h
    cases hx : (fullNameLower x == fn) with
    | true =>
      rw [List.find?_cons] at h
      simp only [hx] at h
      obtain rfl : x = c := Option.some.inj h
      unfold removeFirstEq
      rw [if_pos (eqPy_self x), List.eraseP_cons]
      simp [hx]
    | false =>
      rw [List.find?_cons] at h
      simp only [hx] at h
      have hc : (fullNameLower c == fn) = true := (findPy_some _ xs c h).1
      have hxc : x.eqPy c = false := by
        cases heq : x.eqPy c
        · rfl
        · exfalso
          have hf : x.fields = c.fields := (eqPy_iff_fields x c).mp heq
          rw [fullNameLower_congr x c hf, hc] at hx
          exact Bool.true_eq_false.mp hx
      unfold removeFirstEq
      rw [List.eraseP_cons]
      simp [hxc, hx, ih c h]

/-- C7: delete removes the first contact whose lowercased full name equals the
lowercased query (insertion-order scan) and logs and reports success; with no
match the list is unchanged and failure is reported and logged, distinctly. -/
theorem spec2_C7_delete (pb : PhoneBook) (full_name : String) (t : Nat) :
    (pb.delete_contact full_name t).pb.contacts_list =
      pb.contacts_list.eraseP (fun c => fullNameLower c == full_name.toLower) ∧
    (if (pb.contacts_list.any (fun c => fullNameLower c == full_name.toLower)) = true then
      (pb.delete_contact full_name t).printed = [Msg.deleted full_name.toLower] ∧
      ∃ d, (pb.delete_contact full_name t).pb.audit_log =
        pb.audit_log ++ [logLine t ("Deleted contact: " ++ d)]
     else
      (pb.delete_contact full_name t).pb.contacts_list = pb.contacts_list ∧
      (pb.delete_contact full_name t).printed = [Msg.deleteNotFound full_name.toLower] ∧
      (pb.delete_contact full_name t).pb.audit_log =
        pb.audit_log ++ [logLine t ("Failed to delete contact: " ++ full_name.toLower)]) := by
  cases hfind : pb.contacts_list.find? (fun c => fullNameLower c == full_name.toLower) with
  | some c =>
    have hrem := removeFirstEq_find full_name.toLower pb.contacts_list c hfind
    obtain ⟨hpc, hmem⟩ := findPy_some _ pb.contacts_list c hfind
    have hany : pb.contacts_list.any (fun c => fullNameLower c == full_name.toLower) = true := by
      rw [List.any_eq_true]
      exact ⟨c, hmem, hpc⟩
    refine ⟨?_, ?_⟩
    · simp [PhoneBook.delete_contact, hfind, hrem, PhoneBook.log_operation]
    · rw [if_pos hany]
      refine ⟨?_, ⟨fullNameLower c, ?_⟩⟩ <;>
        simp [PhoneBook.delete_contact, hfind, PhoneBook.log_operation]
  | none =>
    have hnot : ∀ x ∈ pb.contacts_list, ¬(fullNameLower x == full_name.toLower) = true :=
      List.find?_eq_none.mp hfind
    have hany : pb.contacts_list.any (fun c => fullNameLower c == full_name.toLower) = false := by
      rw [List.any_eq_false]
      intro x hx
      simpa using hnot x hx
    have herase := List.eraseP_of_forall_not hnot
    rw [hany]
    refine ⟨?_, ?_⟩
    · simp [PhoneBook.delete_contact, hfind, herase, PhoneBook.log_operation]
    · rw [if_neg (by simp)]
      refine ⟨?_, ?_, ?_⟩ <;>
        simp [PhoneBook.delete_contact, hfind, PhoneBook.log_operation]

/-! ### Round-trip machinery (C6) -/

/-- The five-field snapshots of a contact list, in order. -/
def fieldsList (l : List Contact) : List FieldValues :=
  l.map Contact.fields

/-- The fields of a row-built contact do not depend on the build timestamp. -/
theorem rowContact_fields (row : List String) (t t' : Nat) :
    (rowContact row t).map Contact.fields = (rowContact row t').map Contact.fields := by
  unfold rowContact
  split
  · rfl
  · rfl

theorem goodContacts_fields (rows : List (List String)) (t t' : Nat) :
    fieldsList (goodContacts t rows) = fieldsList (goodContacts t' rows) := by
  induction rows with
  | nil => rfl
  | cons row rest ih =>
    have h := rowContact_fields row t t'
    cases hc : rowContact row t with
    | none =>
      cases hc' : rowContact row t' with
      | none => simp [goodContacts, hc, hc']
      | some c' => rw [hc, hc'] at h; simp at h
    | some c =>
      cases hc' : rowContact row t' with
      | none => rw [hc, hc'] at h; simp at h
      | some c' =>
        rw [hc, hc'] at h
        have hf : c.fields = c'.fields := by simpa using h
        simp only [goodContacts, hc, hc', fieldsList, List.map_cons] at ih ⊢
        rw [hf]
        rw [show (goodContacts t rest).map Contact.fields =
          (goodContacts t' rest).map Contact.fields from ih]

theorem removeFirstEq_eq_none (c : Contact) :
    ∀ l : List Contact, removeFirstEq l c = none ↔ c.fields ∉ fieldsList l := by
  intro l
  induction l with
  | nil => simp [removeFirstEq, fieldsList]
  | cons x xs ih =>
    cases hx : x.eqPy c with
    | true =>
      have hf : x.fields = c.fields := (eqPy_iff_fields x c).mp hx
      apply iff_of_false
      · simp [removeFirstEq, hx]
      · intro hnot
        exact hnot (by simp [fieldsList, hf])
    | false =>
      have hf : x.fields ≠ c.fields := by
        intro he
        rw [← eqPy_iff_fields x c] at he
        rw [he] at hx
        exact Bool.true_eq_false.mp hx
      have hf' : c.fields ≠ x.fields := Ne.symm hf
      simp [removeFirstEq, hx, fieldsList, List.mem_cons, hf', ih]

theorem removeFirstEq_isSome (c : Contact) (l : List Contact)
    (hmem : c.fields ∈ fieldsList l) : ∃ l', removeFirstEq l c = some l' := by
  cases hrem : removeFirstEq l c with
  | some l' => exact ⟨l', rfl⟩
  | none => exact absurd hmem ((removeFirstEq_eq_none c l).mp hrem)

theorem removeFirstEq_append (c : Contact) :
    ∀ (pre S : List Contact), c.fields ∉ fieldsList pre →
      removeFirstEq (pre ++ S) c = (removeFirstEq S c).map (fun l => pre ++ l) := by
  intro pre
  induction pre with
  | nil =>
    intro S _
    cases hS : removeFirstEq S c <;> simp [hS]
  | cons x pre' ih =>
    intro S h
    have hxf : x.fields ≠ c.fields := by
      intro he
      exact h (by simp [fieldsList, he])
    have hx : x.eqPy c = false := by
      cases heq : x.eqPy c
      · rfl
      · exact absurd ((eqPy_iff_fields x c).mp heq) hxf
    have h' : c.fields ∉ fieldsList pre' := by
      intro hin
      exact h (by simp [fieldsList] at hin ⊢; exact Or.inr hin)
    simp only [List.cons_append, removeFirstEq, hx, Bool.false_eq_true, if_false]
    rw [show pre'.append S = pre' ++ S from rfl, ih S h']
    cases hS : removeFirstEq S c <;> simp [hS]

theorem removeFirstEq_some_fields (c : Contact) :
    ∀ l l', removeFirstEq l c = some l' →
      fieldsList l' = (fieldsList l).erase c.fields ∧ l'.length + 1 = l.length := by
  intro l
  induction l with
  | nil => intro l' h; simp [removeFirstEq] at h
  | cons x xs ih =>
    intro l' h
    cases hx : x.eqPy c with
    | true =>
      simp only [removeFirstEq, hx, if_true] at h
      obtain rfl : xs = l' := Option.some.inj h
      have hf : x.fields = c.fields := (eqPy_iff_fields x c).mp hx
      constructor
      · rw [show fieldsList (x :: xs) = x.fields :: fieldsList xs from rfl, hf,
          List.erase_cons_head]
      · simp
    | false =>
      simp only [removeFirstEq, hx, Bool.false_eq_true, if_false] at h
      cases hrem : removeFirstEq xs c with
      | none => rw [hrem] at h; simp at h
      | some l'' =>
        rw [hrem] at h
        simp only [Option.map_some'] at h
        obtain rfl : x :: l'' = l' := Option.some.inj h
        obtain ⟨ih1, ih2⟩ := ih l'' hrem
        have hbeq : (x.fields == c.fields) = false := hx
        constructor
        · rw [show fieldsList (x :: l'') = x.fields :: fieldsList l'' from rfl,
            show fieldsList (x :: xs) = x.fields :: fieldsList xs from rfl,
            List.erase_cons]
          simp only [hbeq, Bool.false_eq_true, if_false]
          rw [ih1]
        · simp only [List.length_cons]
          omega

/-- Key invariant for the round trip: deleting row-built contacts from
`pre ++ S` consumes exactly the suffix `S` when the field snapshots of `S` are
a permutation of the row-built snapshots and no contact of `pre` shares a
snapshot with them — every row removal hits `S`, never `pre`. -/
theorem delRows_length (td : Nat) :
    ∀ (rows : List (List String)) (pre S : List Contact),
      List.Perm (fieldsList S) (fieldsList (goodContacts td rows)) →
      (∀ x ∈ pre, x.fields ∉ fieldsList (goodContacts td rows)) →
      ((delRows td (pre ++ S) rows).1).length = pre.length := by
  intro rows
  induction rows with
  | nil =>
    intro pre S hperm hpre
    have hnil : fieldsList S = [] := List.Perm.eq_nil hperm
    have hS : S = [] := by
      cases S with
      | nil => rfl
      | cons y ys => simp [fieldsList] at hnil
    subst hS
    simp [delRows]
  | cons row rest ih =>
    intro pre S hperm hpre
    cases hc : rowContact row td with
    | none =>
      have hg : goodContacts td (row :: rest) = [] := by simp [goodContacts, hc]
      rw [hg] at hperm
      have hnil : fieldsList S = [] := List.Perm.eq_nil hperm
      have hS : S = [] := by
        cases S with
        | nil => rfl
        | cons y ys => simp [fieldsList] at hnil
      subst hS
      simp [delRows, hc]
    | some c =>
      have hg : goodContacts td (row :: rest) = c :: goodContacts td rest := by
        simp [goodContacts, hc]
      rw [hg] at hperm hpre
      have hmem : c.fields ∈ fieldsList S :=
        hperm.mem_iff.mpr (by simp [fieldsList])
      obtain ⟨S', hS'⟩ := removeFirstEq_isSome c S hmem
      have hcpre : c.fields ∉ fieldsList pre := by
        intro hin
        obtain ⟨x, hx, hxf⟩ := List.mem_map.mp hin
        exact hpre x hx (by simp [fieldsList, hxf])
      have happ := removeFirstEq_append c pre S hcpre
      rw [hS'] at happ
      obtain ⟨hf', hlen'⟩ := removeFirstEq_some_fields c S S' hS'
      have hperm' : List.Perm (fieldsList S') (fieldsList (goodContacts td rest)) := by
        rw [hf']
        have h1 := List.Perm.erase c.fields hperm
        rwa [show (fieldsList (c :: goodContacts td rest)).erase c.fields =
          fieldsList (goodContacts td rest) by
            rw [show fieldsList (c :: goodContacts td rest) =
              c.fields :: fieldsList (goodContacts td rest) from rfl, List.erase_cons_head]]
          at h1
      have hpre' : ∀ x ∈ pre, x.fields ∉ fieldsList (goodContacts td rest) := by
        intro x hx hin
        exact hpre x hx (by
          rw [show fieldsList (c :: goodContacts td rest) =
            c.fields :: fieldsList (goodContacts td rest) from rfl]
          exact List.mem_cons_of_mem _ hin)
      have hrec := ih pre S' hperm' hpre'
      simpa [delRows, hc, happ] using hrec

/-- Every snapshot among the row-built contacts comes from some row. -/
theorem mem_fieldsList_goodContacts (t : Nat) :
    ∀ (rows : List (List String)) (f : FieldValues),
      f ∈ fieldsList (goodContacts t rows) →
      ∃ r ∈ rows, ∃ c, rowContact r t = some c ∧ c.fields = f := by
  intro rows
  induction rows with
  | nil => intro f hf; simp [goodContacts, fieldsList] at hf
  | cons row rest ih =>
    intro f hf
    cases hc : rowContact row t with
    | none => simp [goodContacts, hc, fieldsList] at hf
    | some c =>
      have hg : goodContacts t (row :: rest) = c :: goodContacts t rest := by
        simp [goodContacts, hc]
      rw [hg, show fieldsList (c :: goodContacts t rest) =
        c.fields :: fieldsList (goodContacts t rest) from rfl] at hf
      rcases List.mem_cons.mp hf with h1 | h2
      · exact ⟨row, by simp, c, hc, h1.symm⟩
      · obtain ⟨r, hr, c', hc', hcf⟩ := ih f h2
        exact ⟨r, by simp [hr], c', hc', hcf⟩

/-- C6: batch import immediately followed by batch delete with the same rows
returns the directory to exactly its pre-import size, provided no row builds a
contact structurally equal to a pre-existing one. -/
theorem spec2_C6_roundtrip (pb : PhoneBook) (filename : String)
    (rows : List (List String)) (t1 t2 : Nat)
    (h : ∀ x ∈ pb.contacts_list, ∀ r ∈ rows.tail, ∀ c, rowContact r t1 = some c →
      x.fields ≠ c.fields) :
    (((pb.batch_add_contacts filename rows true t1).pb).batch_delete_contacts
        filename rows true t2).pb.contacts_list.length = pb.contacts_list.length := by
  have hadd : (pb.batch_add_contacts filename rows true t1).pb.contacts_list =
      pb.contacts_list ++ goodContacts t1 rows.tail := by
    cases hx : (addRows t1 pb.contacts_list rows.tail).2 <;>
      simp [PhoneBook.batch_add_contacts, hx, PhoneBook.log_operation,
        ← addRows_fst t1 rows.tail pb.contacts_list, hx]
  have hdel : ∀ (pb' : PhoneBook),
      (pb'.batch_delete_contacts filename rows true t2).pb.contacts_list =
        (delRows t2 pb'.contacts_list rows.tail).1 := by
    intro pb'
    cases hx : (delRows t2 pb'.contacts_list rows.tail).2.2 <;>
      simp [PhoneBook.batch_delete_contacts, hx, PhoneBook.log_operation]
  have hperm : List.Perm (fieldsList (goodContacts t1 rows.tail))
      (fieldsList (goodContacts t2 rows.tail)) := by
    rw [goodContacts_fields rows.tail t1 t2]
  have hpre : ∀ x ∈ pb.contacts_list, x.fields ∉ fieldsList (goodContacts t2 rows.tail) := by
    intro x hx hin
    obtain ⟨r, hr, c2, hc2, hcf⟩ := mem_fieldsList_goodContacts t2 rows.tail x.fields hin
    have hbr := rowContact_fields r t1 t2
    rw [hc2] at hbr
    cases hc1 : rowContact r t1 with
    | none => rw [hc1] at hbr; simp at hbr
    | some c1 =>
      rw [hc1] at hbr
      have : c1.fields = c2.fields := by simpa using hbr
      exact h x hx r hr c1 hc1 (by rw [this, hcf])
  rw [hdel, hadd]
  exact delRows_length t2 rows.tail pb.contacts_list (goodContacts t1 rows.tail) hperm hpre

/-- C6 witness: the round trip at a concrete directory and file (whose rows
include a duplicate pair). -/
theorem spec2_C6_witness :
    ((((PhoneBook.mk [Contact.init "Zed" "Qq" "(613) 555-9999" none none 0] []).batch_add_contacts
        "contacts.csv" [["first", "last", "phone"], ["Ann", "Bee", "(613) 555-1111"],
          ["Ann", "Bee", "(613) 555-1111"]] true 0).pb).batch_delete_contacts "contacts.csv"
        [["first", "last", "phone"], ["Ann", "Bee", "(613) 555-1111"],
          ["Ann", "Bee", "(613) 555-1111"]] true 1).pb.contacts_list.length =
      (PhoneBook.mk [Contact.init "Zed" "Qq" "(613) 555-9999" none none 0]
        []).contacts_list.length :=
  spec2_C6_roundtrip (PhoneBook.mk [Contact.init "Zed" "Qq" "(613) 555-9999" none none 0] [])
    "contacts.csv"
    [["first", "last", "phone"], ["Ann", "Bee", "(613) 555-1111"],
      ["Ann", "Bee", "(613) 555-1111"]] 0 1 (by
      intro x hx r hr c hc
      simp only [List.mem_singleton] at hx
      subst hx
      have hrow : r = ["Ann", "Bee", "(613) 555-1111"] := by
        simpa using hr
      subst hrow
      rw [show rowContact ["Ann", "Bee", "(613) 555-1111"] 0 =
        some (Contact.init "Ann" "Bee" "(613) 555-1111" none none 0) from rfl] at hc
      obtain rfl := Option.some.inj hc
      decide)

/-- C10: a successful Directory update mutates only the five user-supplied
fields of the contact object it was handed — the directory's contact sequence
(length, membership, order) is untouched, every other contact object is
untouched, and even the updated contact's timestamps and history are
untouched. -/
theorem spec2_C10_frame (st : HeapState) (cid : Nat)
    (f l p e a : Option String) (t : Nat)
    (hp : (truthy p && !is_valid_phone (p.getD "")) = false)
    (he : (truthy e && !is_valid_email (e.getD "")) = false) :
    ((st.update_contact cid f l p e a t).1).contact_ids = st.contact_ids ∧
    (∀ i, i ≠ cid → ((st.update_contact cid f l p e a t).1).heap i = st.heap i) ∧
    (((st.update_contact cid f l p e a t).1).heap cid).time_created =
      (st.heap cid).time_created ∧
    (((st.update_contact cid f l p e a t).1).heap cid).time_updated =
      (st.heap cid).time_updated ∧
    (((st.update_contact cid f l p e a t).1).heap cid).update_history =
      (st.heap cid).update_history := by
  refine ⟨rfl, ?_, ?_, ?_, ?_⟩
  · intro i hi
    simp [HeapState.update_contact, hi]
  all_goals simp [HeapState.update_contact, PhoneBook.update_contact, hp, he]

/-- C10 witness: the frame property at a concrete heap and update. -/
theorem spec2_C10_witness :
    ((HeapState.mk [0] (fun _ => Contact.init "Ann" "Bee" "(613) 555-0000" none none 0)
        []).update_contact 0 (some "X") none (some "(613) 555-2222") none none 1).1.contact_ids =
      (HeapState.mk [0] (fun _ => Contact.init "Ann" "Bee" "(613) 555-0000" none none 0)
        []).contact_ids ∧
    (∀ i, i ≠ 0 →
      ((HeapState.mk [0] (fun _ => Contact.init "Ann" "Bee" "(613) 555-0000" none none 0)
        []).update_contact 0 (some "X") none (some "(613) 555-2222") none none 1).1.heap i =
      (HeapState.mk [0] (fun _ => Contact.init "Ann" "Bee" "(613) 555-0000" none none 0)
        []).heap i) ∧
    (((HeapState.mk [0] (fun _ => Contact.init "Ann" "Bee" "(613) 555-0000" none none 0)
        []).update_contact 0 (some "X") none (some "(613) 555-2222") none none 1).1.heap
          0).time_created =
      ((HeapState.mk [0] (fun _ => Contact.init "Ann" "Bee" "(613) 555-0000" none none 0)
        []).heap 0).time_created ∧
    (((HeapState.mk [0] (fun _ => Contact.init "Ann" "Bee" "(613) 555-0000" none none 0)
        []).update_contact 0 (some "X") none (some "(613) 555-2222") none none 1).1.heap
          0).time_updated =
      ((HeapState.mk [0] (fun _ => Contact.init "Ann" "Bee" "(613) 555-0000" none none 0)
        []).heap 0).time_updated ∧
    (((HeapState.mk [0] (fun _ => Contact.init "Ann" "Bee" "(613) 555-0000" none none 0)
        []).update_contact 0 (some "X") none (some "(613) 555-2222") none none 1).1.heap
          0).update_history =
      ((HeapState.mk [0] (fun _ => Contact.init "Ann" "Bee" "(613) 555-0000" none none 0)
        []).heap 0).update_history :=
  spec2_C10_frame
    (HeapState.mk [0] (fun _ => Contact.init "Ann" "Bee" "(613) 555-0000" none none 0) [])
    0 (some "X") none (some "(613) 555-2222") none none 1 (by decide) (by decide)

end Phonebook
